import Mathlib

/-!
Verification of the `DiscoveryService` from
`packages/discovery/src/discovery.service.ts`.

The service is shallowly embedded: JavaScript values that can carry
metadata are modelled by `JSVal` (with JavaScript truthiness), object
references (instances, class constructors, method handlers) by `Nat`
identifiers, and the three external collaborators — the modules
container, the metadata scanner and the `Reflect` annotation store — by
the fields of `Env`.  `Array.prototype.filter` evaluates the truthiness
of the callback result, so predicates are embedded as `Bool`-valued
functions with truthiness applied where the source returns a raw value.
-/

namespace Discovery

/-- Metadata keys (`MetaKey = string | number | Symbol` in the source;
string keys suffice for the embedding). -/
abbrev MetaKey := String

/-- `PATH_METADATA` from `@nestjs/common/constants`: the route-path
metadata key attached to route-handler methods. -/
def PATH_METADATA : MetaKey := "path"

/-- A JavaScript value, as far as metadata is concerned: enough structure
to decide JavaScript truthiness.  Objects are identified by reference. -/
inductive JSVal where
  | jsUndefined : JSVal
  | null : JSVal
  | bool : Bool → JSVal
  | num : Int → JSVal
  | str : String → JSVal
  | obj : Nat → JSVal
deriving DecidableEq, Repr

/-- JavaScript truthiness of a value. -/
def JSVal.truthy : JSVal → Bool
  | .jsUndefined => false
  | .null => false
  | .bool b => b
  | .num n => n != 0
  | .str s => s != ""
  | .obj _ => true

/-- An `InstanceWrapper` entry of a module's `routes`/`components` map:
registered name, live instance (by reference) and the `metatype`
(constructor reference), which is absent for value/alias providers. -/
structure InstanceWrapper where
  name : String
  inst : Nat
  metatype : Option Nat
deriving DecidableEq, Repr

/-- A Nest `Module` as consumed by the service: its own metatype
(name and constructor reference), its instance, and the two component
maps in iteration order. -/
structure NestModule where
  metatypeName : String
  metatypeRef : Nat
  inst : Nat
  routes : List InstanceWrapper
  components : List InstanceWrapper
deriving DecidableEq, Repr

/-- The external collaborators of the service:
`modules` is the `ModulesContainer` as an ordered list of
(key, module) entries; `scanNames` is the `MetadataScanner`'s list of
eligible method names on the prototype of a given instance;
`protoLookup` resolves `prototype[methodName]` to the handler reference;
`getMetadata` is the `Reflect` annotation store
(`Reflect.getMetadata(key, target)`), returning `.jsUndefined` for absence. -/
structure Env where
  modules : List (String × NestModule)
  scanNames : Nat → List String
  protoLookup : Nat → String → Nat
  getMetadata : MetaKey → Nat → JSVal

/-- The reduced `{name, instance, classType}` descriptor of the owning
module stored in every `DiscoveredClass`. -/
structure ParentModule where
  name : String
  inst : Nat
  classType : Nat
deriving DecidableEq, Repr

/-- `DiscoveredClass`: one component of the application graph.
`classType` is `none` when the component has no resolvable
constructor (value/alias providers). -/
structure DiscoveredClass where
  name : String
  inst : Nat
  classType : Option Nat
  parentModule : ParentModule
deriving DecidableEq, Repr

/-- `DiscoveredClassWithMeta<T>`. -/
structure DiscoveredClassWithMeta where
  meta : JSVal
  discoveredClass : DiscoveredClass
deriving DecidableEq, Repr

/-- `DiscoveredMethod`. -/
structure DiscoveredMethod where
  handler : Nat
  methodName : String
  parentClass : DiscoveredClass
deriving DecidableEq, Repr

/-- `DiscoveredMethodWithMeta<T>`. -/
structure DiscoveredMethodWithMeta where
  meta : JSVal
  discoveredMethod : DiscoveredMethod
deriving DecidableEq, Repr

/-- `Reflect.getMetadata` lifted to a possibly-absent target.
Modelled from the spec: the annotation store itself is an external
collaborator (the `reflect-metadata` Reflect registry, not part of this
repository); per §6 it supports `get(key, target) -> metadata | absent`,
and per §7 a lookup keyed on an unresolved type reference returns
absence rather than raising. -/
def getMetadataOpt (e : Env) (k : MetaKey) : Option Nat → JSVal
  | none => .jsUndefined
  | some r => e.getMetadata k r

/-- `Reflect.hasMetadata`, the presence check of the annotation store.
Modelled from the spec (§6): `has(key, target) -> boolean`; metadata is
present exactly when `get` does not report absence.  Not used by the
source, only to compare the spec's wording with the code's behaviour. -/
def hasMetadataAtKey (e : Env) (k : MetaKey) (target : Option Nat) : Bool :=
  getMetadataOpt e k target != .jsUndefined

/-- `withMetaAtKey`: the exported class-level filter.  The source returns
`Reflect.getMetadata(key, component.classType)` itself and lets
`Array.prototype.filter` take its truthiness. -/
def withMetaAtKey (e : Env) (key : MetaKey) : DiscoveredClass → Bool :=
  fun component => (getMetadataOpt e key component.classType).truthy

/-- `DiscoveryService.toDiscoveredClass`. -/
def toDiscoveredClass (nestModule : NestModule) (component : InstanceWrapper) :
    DiscoveredClass :=
  { name := component.name
    inst := component.inst
    classType := component.metatype
    parentModule :=
      { name := nestModule.metatypeName
        inst := nestModule.inst
        classType := nestModule.metatypeRef } }

/-- The private fields of a `DiscoveryService` instance: the two
snapshot lists computed once by the constructor. -/
structure ServiceState where
  discoveredControllers : List DiscoveredClass
  discoveredProviders : List DiscoveredClass
deriving DecidableEq, Repr

/-- The `DiscoveryService` constructor: flatten every module's `routes`
map into `discoveredControllers` and every module's `components` map
into `discoveredProviders`, converting each entry with
`toDiscoveredClass`. -/
def constructService (e : Env) : ServiceState :=
  { discoveredControllers :=
      (e.modules.map fun km => km.2.routes.map (toDiscoveredClass km.2)).flatten
    discoveredProviders :=
      (e.modules.map fun km => km.2.components.map (toDiscoveredClass km.2)).flatten }

/-- `DiscoveryService.providers`. -/
def providers (st : ServiceState) (filter : DiscoveredClass → Bool) :
    List DiscoveredClass :=
  st.discoveredProviders.filter fun x => filter x

/-- `DiscoveryService.controllers`. -/
def controllers (st : ServiceState) (filter : DiscoveredClass → Bool) :
    List DiscoveredClass :=
  st.discoveredControllers.filter fun x => filter x

/-- `DiscoveryService.providersWithMetaAtKey`. -/
def providersWithMetaAtKey (e : Env) (st : ServiceState) (metaKey : MetaKey) :
    List DiscoveredClassWithMeta :=
  (providers st (withMetaAtKey e metaKey)).map fun x =>
    { meta := getMetadataOpt e metaKey x.classType
      discoveredClass := x }

/-- `DiscoveryService.controllersWithMetaAtKey`. -/
def controllersWithMetaAtKey (e : Env) (st : ServiceState) (metaKey : MetaKey) :
    List DiscoveredClassWithMeta :=
  (controllers st (withMetaAtKey e metaKey)).map fun x =>
    { meta := getMetadataOpt e metaKey x.classType
      discoveredClass := x }

/-- `DiscoveryService.extractMethodMetaAtKey`: look the handler up on the
prototype and read metadata at `metaKey` from the handler itself. -/
def extractMethodMetaAtKey (e : Env) (metaKey : MetaKey)
    (discoveredClass : DiscoveredClass) (protoRef : Nat) (methodName : String) :
    DiscoveredMethodWithMeta :=
  let handler := e.protoLookup protoRef methodName
  { meta := e.getMetadata metaKey handler
    discoveredMethod :=
      { handler := handler
        methodName := methodName
        parentClass := discoveredClass } }

/-- `DiscoveryService.classMethodsWithMetaAtKey`: scan the prototype of
the component's instance, extract per-method metadata, keep the truthy
ones (`.filter(x => !!x.meta)`). -/
def classMethodsWithMetaAtKey (e : Env) (component : DiscoveredClass)
    (metaKey : MetaKey) : List DiscoveredMethodWithMeta :=
  ((e.scanNames component.inst).map fun name =>
      extractMethodMetaAtKey e metaKey component component.inst name).filter
    fun x => x.meta.truthy

/-- `DiscoveryService.providerMethodsWithMetaAtKey` (the provider filter
defaults to accepting every provider). -/
def providerMethodsWithMetaAtKey (e : Env) (st : ServiceState) (metaKey : MetaKey)
    (providerFilter : DiscoveredClass → Bool := fun _ => true) :
    List DiscoveredMethodWithMeta :=
  ((providers st providerFilter).map fun provider =>
    classMethodsWithMetaAtKey e provider metaKey).flatten

/-- `DiscoveryService.controllerMethodsWithMetaAtKey` (the controller
filter defaults to accepting every controller). -/
def controllerMethodsWithMetaAtKey (e : Env) (st : ServiceState) (metaKey : MetaKey)
    (controllerFilter : DiscoveredClass → Bool := fun _ => true) :
    List DiscoveredMethodWithMeta :=
  ((controllers st controllerFilter).map fun controller =>
    classMethodsWithMetaAtKey e controller metaKey).flatten

/-- Lodash `uniqBy`: keep the first occurrence of each key, in order. -/
def uniqBy {α β : Type} [DecidableEq β] (f : α → β) : List α → List α
  | [] => []
  | x :: xs => x :: uniqBy f (xs.filter fun y => decide (f y ≠ f x))
termination_by l => l.length
decreasing_by
  simp only [List.length_cons]
  exact Nat.lt_succ_of_le (List.length_filter_le _ _)

/-- `DiscoveryService.methodsAndControllerMethodsWithMetaAtKey` (the meta
filter defaults to accepting every meta value). -/
def methodsAndControllerMethodsWithMetaAtKey (e : Env) (st : ServiceState)
    (metaKey : MetaKey) (metaFilter : JSVal → Bool := fun _ => true) :
    List DiscoveredMethodWithMeta :=
  let controllersWithMeta :=
    (controllersWithMetaAtKey e st metaKey).filter fun x => metaFilter x.meta
  let methodsFromDecoratedControllers :=
    (controllersWithMeta.map fun controller =>
      classMethodsWithMetaAtKey e controller.discoveredClass PATH_METADATA).flatten
  let decoratedMethods :=
    (controllerMethodsWithMetaAtKey e st metaKey).filter fun x => metaFilter x.meta
  uniqBy (fun x => x.discoveredMethod.handler)
    (methodsFromDecoratedControllers ++ decoratedMethods)

/-- The composite query as the spec words it, step by step (§4.2):
(1) controllers carrying class-level meta at `metaKey` whose meta passes
`metaFilter`; (2) for each, the methods carrying the route-path key,
via the method-metadata extractor scanning for `PATH_METADATA`;
(3) independently, methods directly tagged with `metaKey` across all
controllers whose meta passes `metaFilter`; (4) the union of (2)
followed by (3), de-duplicated by handler identity. -/
def methodsAndControllerMethodsSpec (e : Env) (st : ServiceState)
    (metaKey : MetaKey) (metaFilter : JSVal → Bool) :
    List DiscoveredMethodWithMeta :=
  let step1 :=
    (controllersWithMetaAtKey e st metaKey).filter fun x => metaFilter x.meta
  let step2 :=
    (step1.map fun controller =>
      classMethodsWithMetaAtKey e controller.discoveredClass PATH_METADATA).flatten
  let step3 :=
    (controllerMethodsWithMetaAtKey e st metaKey fun _ => true).filter
      fun x => metaFilter x.meta
  uniqBy (fun x => x.discoveredMethod.handler) (step2 ++ step3)

/-- The concatenation that the composite query de-duplicates:
class-inherited route-handler methods followed by directly-tagged
methods. -/
def mamConcat (e : Env) (st : ServiceState) (metaKey : MetaKey)
    (metaFilter : JSVal → Bool) : List DiscoveredMethodWithMeta :=
  ((((controllersWithMetaAtKey e st metaKey).filter fun x =>
      metaFilter x.meta).map fun controller =>
        classMethodsWithMetaAtKey e controller.discoveredClass
          PATH_METADATA).flatten) ++
    ((controllerMethodsWithMetaAtKey e st metaKey).filter fun x =>
      metaFilter x.meta)

/-! Each query method of the class, rendered as a state transformer on
the service's private fields: the call returns its result together with
the fields as they stand after the call.  The source methods only read
the two `readonly` lists and never assign them, which the wrappers make
explicit by returning the state unchanged. -/

/-- `providers`, as a call on the service instance. -/
def providersCall (st : ServiceState) (filter : DiscoveredClass → Bool) :
    List DiscoveredClass × ServiceState :=
  (providers st filter, st)

/-- `controllers`, as a call on the service instance. -/
def controllersCall (st : ServiceState) (filter : DiscoveredClass → Bool) :
    List DiscoveredClass × ServiceState :=
  (controllers st filter, st)

/-- `providersWithMetaAtKey`, as a call on the service instance. -/
def providersWithMetaAtKeyCall (e : Env) (st : ServiceState) (metaKey : MetaKey) :
    List DiscoveredClassWithMeta × ServiceState :=
  (providersWithMetaAtKey e st metaKey, st)

/-- `controllersWithMetaAtKey`, as a call on the service instance. -/
def controllersWithMetaAtKeyCall (e : Env) (st : ServiceState) (metaKey : MetaKey) :
    List DiscoveredClassWithMeta × ServiceState :=
  (controllersWithMetaAtKey e st metaKey, st)

/-- `classMethodsWithMetaAtKey`, as a call on the service instance. -/
def classMethodsWithMetaAtKeyCall (e : Env) (st : ServiceState)
    (component : DiscoveredClass) (metaKey : MetaKey) :
    List DiscoveredMethodWithMeta × ServiceState :=
  (classMethodsWithMetaAtKey e component metaKey, st)

/-- `providerMethodsWithMetaAtKey`, as a call on the service instance. -/
def providerMethodsWithMetaAtKeyCall (e : Env) (st : ServiceState)
    (metaKey : MetaKey) (providerFilter : DiscoveredClass → Bool) :
    List DiscoveredMethodWithMeta × ServiceState :=
  (providerMethodsWithMetaAtKey e st metaKey providerFilter, st)

/-- `controllerMethodsWithMetaAtKey`, as a call on the service instance. -/
def controllerMethodsWithMetaAtKeyCall (e : Env) (st : ServiceState)
    (metaKey : MetaKey) (controllerFilter : DiscoveredClass → Bool) :
    List DiscoveredMethodWithMeta × ServiceState :=
  (controllerMethodsWithMetaAtKey e st metaKey controllerFilter, st)

/-- `methodsAndControllerMethodsWithMetaAtKey`, as a call on the service
instance. -/
def methodsAndControllerMethodsWithMetaAtKeyCall (e : Env) (st : ServiceState)
    (metaKey : MetaKey) (metaFilter : JSVal → Bool) :
    List DiscoveredMethodWithMeta × ServiceState :=
  (methodsAndControllerMethodsWithMetaAtKey e st metaKey metaFilter, st)

/-! A small concrete application used to instantiate the theorems:
one module with two controllers and two providers.  `CatsController`
(class ref 10) carries class-level meta `"admin"` at key `"K"` and two
route handlers `list` (handler 21, path `"/"`) and `create` (handler 22,
path `"/create"`, also directly tagged at `"K"`); `DogsController`
(class ref 11) has a method `bark` (handler 23) directly tagged at
`"K"`; `CatsService` (class ref 12) carries class-level meta at `"S"`
and a present-but-falsy value `0` at `"F"`; `ValueProvider` has no
resolvable class type. -/

/-- The method names the scanner reports per instance. -/
def exScanNames : Nat → List String := fun i =>
  if i = 1 then ["list", "create"]
  else if i = 2 then ["bark"]
  else if i = 3 then ["meow"]
  else []

/-- `prototype[methodName]` per instance. -/
def exProtoLookup : Nat → String → Nat := fun i name =>
  if i = 1 ∧ name = "list" then 21
  else if i = 1 ∧ name = "create" then 22
  else if i = 2 ∧ name = "bark" then 23
  else if i = 3 ∧ name = "meow" then 24
  else 0

/-- The annotation store of the example application. -/
def exGetMetadata : MetaKey → Nat → JSVal := fun k t =>
  if k = "K" ∧ t = 10 then .str "admin"
  else if k = "K" ∧ t = 22 then .str "direct"
  else if k = "K" ∧ t = 23 then .str "direct2"
  else if k = "path" ∧ t = 21 then .str "/"
  else if k = "path" ∧ t = 22 then .str "/create"
  else if k = "path" ∧ t = 23 then .str "/bark"
  else if k = "S" ∧ t = 12 then .str "service"
  else if k = "F" ∧ t = 12 then .num 0
  else .jsUndefined

/-- The single module of the example application. -/
def exModule : NestModule :=
  { metatypeName := "AppModule"
    metatypeRef := 100
    inst := 101
    routes :=
      [{ name := "CatsController", inst := 1, metatype := some 10 },
       { name := "DogsController", inst := 2, metatype := some 11 }]
    components :=
      [{ name := "CatsService", inst := 3, metatype := some 12 },
       { name := "ValueProvider", inst := 4, metatype := none }] }

/-- The example environment. -/
def exEnv : Env :=
  { modules := [("AppModule", exModule)]
    scanNames := exScanNames
    protoLookup := exProtoLookup
    getMetadata := exGetMetadata }

/-- The example service after construction. -/
def exSt : ServiceState := constructService exEnv

/-- The `DiscoveredClass` record of `CatsController`. -/
def exCatsDC : DiscoveredClass :=
  { name := "CatsController"
    inst := 1
    classType := some 10
    parentModule := { name := "AppModule", inst := 101, classType := 100 } }

/-- The `DiscoveredClass` record of `DogsController`. -/
def exDogsDC : DiscoveredClass :=
  { name := "DogsController"
    inst := 2
    classType := some 11
    parentModule := { name := "AppModule", inst := 101, classType := 100 } }

/-- The `DiscoveredClass` record of `CatsService`. -/
def exCatsServiceDC : DiscoveredClass :=
  { name := "CatsService"
    inst := 3
    classType := some 12
    parentModule := { name := "AppModule", inst := 101, classType := 100 } }

/-- The `DiscoveredClass` record of `ValueProvider` (no class type). -/
def exValueDC : DiscoveredClass :=
  { name := "ValueProvider"
    inst := 4
    classType := none
    parentModule := { name := "AppModule", inst := 101, classType := 100 } }

/-- The discovered `list` route handler of `CatsController`, as produced
by the route-path scan. -/
def exListEntry : DiscoveredMethodWithMeta :=
  { meta := .str "/"
    discoveredMethod :=
      { handler := 21, methodName := "list", parentClass := exCatsDC } }

/-- A second application whose single controller and single provider
both carry a stored but falsy metadata value (`false`) at key `"K"`. -/
def exFalsyModule : NestModule :=
  { metatypeName := "FalsyModule"
    metatypeRef := 200
    inst := 201
    routes := [{ name := "FalsyController", inst := 5, metatype := some 50 }]
    components := [{ name := "FalsyService", inst := 6, metatype := some 60 }] }

/-- Environment of the falsy-metadata application. -/
def exFalsyEnv : Env :=
  { modules := [("FalsyModule", exFalsyModule)]
    scanNames := fun _ => []
    protoLookup := fun _ _ => 0
    getMetadata := fun k t =>
      if k = "K" ∧ (t = 50 ∨ t = 60) then .bool false else .jsUndefined }

/-- The falsy-metadata service after construction. -/
def exFalsySt : ServiceState := constructService exFalsyEnv

/-- A truthy value read from the store is not the absence marker. -/
theorem JSVal.truthy_ne_undef {v : JSVal} (h : v.truthy = true) : v ≠ .jsUndefined := by
  intro hv
  rw [hv] at h
  exact Bool.false_ne_true h

/-- Unfolding lemma for `uniqBy` on a cons cell. -/
theorem uniqBy_cons {α β : Type} [DecidableEq β] (f : α → β) (x : α) (xs : List α) :
    uniqBy f (x :: xs) = x :: uniqBy f (xs.filter fun y => decide (f y ≠ f x)) := by
  rw [uniqBy]

/-- `uniqBy` returns a sublist of its input. -/
theorem uniqBy_sublist {α β : Type} [DecidableEq β] (f : α → β) :
    ∀ (n : Nat) (l : List α), l.length ≤ n → (uniqBy f l).Sublist l := by
  intro n
  induction n with
  | zero =>
    intro l hl
    rw [List.length_eq_zero.mp (Nat.le_zero.mp hl), uniqBy]
  | succ n ih =>
    intro l hl
    cases l with
    | nil => rw [uniqBy]
    | cons x xs =>
      rw [uniqBy_cons]
      refine List.Sublist.cons₂ x ?_
      refine List.Sublist.trans
        (ih _ (Nat.le_trans (List.length_filter_le _ _)
          (Nat.le_of_succ_le_succ hl))) ?_
      exact List.filter_sublist xs

/-- Membership in `uniqBy f l` implies membership in `l`. -/
theorem mem_of_mem_uniqBy {α β : Type} [DecidableEq β] {f : α → β} {l : List α}
    {y : α} (h : y ∈ uniqBy f l) : y ∈ l :=
  (uniqBy_sublist f l.length l (Nat.le_refl _)).mem h

/-- The keys of the elements of `uniqBy f l` are pairwise distinct. -/
theorem uniqBy_pairwise {α β : Type} [DecidableEq β] (f : α → β) :
    ∀ (n : Nat) (l : List α), l.length ≤ n →
      (uniqBy f l).Pairwise (fun a b => f a ≠ f b) := by
  intro n
  induction n with
  | zero =>
    intro l hl
    rw [List.length_eq_zero.mp (Nat.le_zero.mp hl), uniqBy]
    exact List.Pairwise.nil
  | succ n ih =>
    intro l hl
    cases l with
    | nil =>
      rw [uniqBy]
      exact List.Pairwise.nil
    | cons x xs =>
      rw [uniqBy_cons]
      refine List.Pairwise.cons ?_ (ih _ (Nat.le_trans (List.length_filter_le _ _)
        (Nat.le_of_succ_le_succ hl)))
      intro b hb
      have hbf : b ∈ xs.filter fun y => decide (f y ≠ f x) := mem_of_mem_uniqBy hb
      have := (List.mem_filter.mp hbf).2
      simp only [decide_eq_true_eq] at this
      exact fun hxb => this hxb.symm

/-- Every key of the input list is represented in `uniqBy f l`. -/
theorem uniqBy_covers {α β : Type} [DecidableEq β] (f : α → β) :
    ∀ (n : Nat) (l : List α), l.length ≤ n →
      ∀ x ∈ l, ∃ y ∈ uniqBy f l, f y = f x := by
  intro n
  induction n with
  | zero =>
    intro l hl x hx
    rw [List.length_eq_zero.mp (Nat.le_zero.mp hl)] at hx
    exact absurd hx (List.not_mem_nil x)
  | succ n ih =>
    intro l hl x hx
    cases l with
    | nil => exact absurd hx (List.not_mem_nil x)
    | cons a xs =>
      rw [uniqBy_cons]
      rcases List.mem_cons.mp hx with rfl | hxs
      · exact ⟨x, List.mem_cons_self _ _, rfl⟩
      · by_cases hfa : f x = f a
        · exact ⟨a, List.mem_cons_self _ _, hfa.symm⟩
        · have hxf : x ∈ xs.filter fun y => decide (f y ≠ f a) :=
            List.mem_filter.mpr ⟨hxs, by simpa using hfa⟩
          obtain ⟨y, hy, hfy⟩ := ih _ (Nat.le_trans (List.length_filter_le _ _)
            (Nat.le_of_succ_le_succ hl)) x hxf
          exact ⟨y, List.mem_cons_of_mem a hy, hfy⟩

/-- Dropping elements on which `q` is false does not change `find? q`,
provided the filter keeps every element on which `q` is true. -/
theorem find?_filter_of_imp {α : Type} (q p : α → Bool) :
    ∀ l : List α, (∀ z ∈ l, q z = true → p z = true) →
      (l.filter p).find? q = l.find? q := by
  intro l
  induction l with
  | nil => intro _; rfl
  | cons a xs ih =>
    intro h
    by_cases hq : q a = true
    · have hp : p a = true := h a (List.mem_cons_self _ _) hq
      rw [List.filter_cons_of_pos hp, List.find?_cons_of_pos _ hq,
        List.find?_cons_of_pos _ hq]
    · have hq' : q a = false := Bool.eq_false_iff.mpr hq
      have hrest : (xs.filter p).find? q = xs.find? q :=
        ih fun z hz => h z (List.mem_cons_of_mem a hz)
      by_cases hp : p a = true
      · rw [List.filter_cons_of_pos hp, List.find?_cons_of_neg _ hq,
          List.find?_cons_of_neg _ hq, hrest]
      · rw [List.filter_cons_of_neg hp,
          List.find?_cons_of_neg _ hq, hrest]

/-- Every element kept by `uniqBy f l` is the first element of `l`
carrying its key. -/
theorem uniqBy_first {α β : Type} [DecidableEq β] (f : α → β) :
    ∀ (n : Nat) (l : List α), l.length ≤ n →
      ∀ y ∈ uniqBy f l, l.find? (fun z => decide (f z = f y)) = some y := by
  intro n
  induction n with
  | zero =>
    intro l hl y hy
    rw [List.length_eq_zero.mp (Nat.le_zero.mp hl)] at hy
    simp [uniqBy] at hy
  | succ n ih =>
    intro l hl y hy
    cases l with
    | nil => simp [uniqBy] at hy
    | cons a xs =>
      rw [uniqBy_cons] at hy
      rcases List.mem_cons.mp hy with rfl | hy'
      · exact List.find?_cons_of_pos _ (by simp)
      · have hyf : y ∈ xs.filter fun z => decide (f z ≠ f a) := mem_of_mem_uniqBy hy'
        have hya : f y ≠ f a := by
          have := (List.mem_filter.mp hyf).2
          simpa using this
        have hfind : (xs.filter fun z => decide (f z ≠ f a)).find?
            (fun z => decide (f z = f y)) = some y :=
          ih _ (Nat.le_trans (List.length_filter_le _ _)
            (Nat.le_of_succ_le_succ hl)) y hy'
        have hskip : xs.find? (fun z => decide (f z = f y)) = some y := by
          rw [← find?_filter_of_imp (fun z => decide (f z = f y))
            (fun z => decide (f z ≠ f a)) xs ?_]
          · exact hfind
          · intro z _ hz
            simp only [decide_eq_true_eq] at hz ⊢
            rw [hz]
            exact hya
        rw [List.find?_cons_of_neg _ (by simpa using fun h => hya h.symm), hskip]

/-- A class whose metadata value at a key is truthy has metadata
reported present at that key by the annotation store. -/
theorem hasMetadataAtKey_of_truthy {e : Env} {k : MetaKey} {t : Option Nat}
    (h : (getMetadataOpt e k t).truthy = true) : hasMetadataAtKey e k t = true := by
  simp only [hasMetadataAtKey, bne_iff_ne, ne_eq, decide_eq_true_eq]
  exact JSVal.truthy_ne_undef h

/-- C1: `methodsAndControllerMethodsWithMetaAtKey metaKey metaFilter`
equals the spec's composition: (1) class-level matches of `metaKey`
passing `metaFilter`, (2) their methods carrying the route-path key
(scanned with the method-metadata extractor for `PATH_METADATA`, not
`metaKey`), (3) methods directly tagged with `metaKey` passing
`metaFilter` across all controllers, (4) the union of (2) followed by
(3). -/
theorem methodsAndControllerMethods_eq_specComposition (e : Env)
    (st : ServiceState) (metaKey : MetaKey) (metaFilter : JSVal → Bool) :
    methodsAndControllerMethodsWithMetaAtKey e st metaKey metaFilter =
      methodsAndControllerMethodsSpec e st metaKey metaFilter := rfl

/-- C2: the composite query never returns two entries with the same
handler reference: its result is pairwise distinct by handler, is a
sublist of the concatenation "class-inherited matches then
directly-tagged matches", covers every handler of that concatenation,
and keeps exactly the first occurrence of each handler. -/
theorem methodsAndControllerMethods_dedup_by_handler (e : Env)
    (st : ServiceState) (metaKey : MetaKey) (metaFilter : JSVal → Bool) :
    (methodsAndControllerMethodsWithMetaAtKey e st metaKey metaFilter).Pairwise
        (fun a b => a.discoveredMethod.handler ≠ b.discoveredMethod.handler)
    ∧ (methodsAndControllerMethodsWithMetaAtKey e st metaKey metaFilter).Sublist
        (mamConcat e st metaKey metaFilter)
    ∧ (∀ x ∈ mamConcat e st metaKey metaFilter,
        ∃ y ∈ methodsAndControllerMethodsWithMetaAtKey e st metaKey metaFilter,
          y.discoveredMethod.handler = x.discoveredMethod.handler)
    ∧ (∀ y ∈ methodsAndControllerMethodsWithMetaAtKey e st metaKey metaFilter,
        (mamConcat e st metaKey metaFilter).find? (fun z =>
          decide (z.discoveredMethod.handler = y.discoveredMethod.handler)) =
          some y) := by
  have hdef : methodsAndControllerMethodsWithMetaAtKey e st metaKey metaFilter =
      uniqBy (fun x => x.discoveredMethod.handler)
        (mamConcat e st metaKey metaFilter) := rfl
  rw [hdef]
  exact ⟨uniqBy_pairwise _ _ _ (Nat.le_refl _),
    uniqBy_sublist _ _ _ (Nat.le_refl _),
    fun x hx => uniqBy_covers _ _ _ (Nat.le_refl _) x hx,
    fun y hy => uniqBy_first _ _ _ (Nat.le_refl _) y hy⟩

/-- C2 witness: in the example application the concatenation contains
the `list` route entry, so the composite query at key `"K"` contains an
entry with handler 21. -/
theorem methodsAndControllerMethods_dedup_by_handler_witness :
    ∃ y ∈ methodsAndControllerMethodsWithMetaAtKey exEnv exSt "K" (fun _ => true),
      y.discoveredMethod.handler = 21 :=
  (methodsAndControllerMethods_dedup_by_handler exEnv exSt "K"
    (fun _ => true)).2.2.1 exListEntry (by decide)

/-- C3: after construction, `controllers (fun _ => true)` and
`providers (fun _ => true)` are the exhaustive unfiltered snapshots:
the flattening, module by module in container order and component by
component in map order, of the `routes` resp. `components` maps, with
length equal to the total entry count. -/
theorem constructService_exhaustive_snapshot (e : Env) :
    controllers (constructService e) (fun _ => true) =
      (e.modules.map fun km => km.2.routes.map (toDiscoveredClass km.2)).flatten
    ∧ (controllers (constructService e) (fun _ => true)).length =
      (e.modules.map fun km => km.2.routes.length).sum
    ∧ providers (constructService e) (fun _ => true) =
      (e.modules.map fun km => km.2.components.map (toDiscoveredClass km.2)).flatten
    ∧ (providers (constructService e) (fun _ => true)).length =
      (e.modules.map fun km => km.2.components.length).sum := by
  have hc : controllers (constructService e) (fun _ => true) =
      (e.modules.map fun km =>
        km.2.routes.map (toDiscoveredClass km.2)).flatten :=
    List.filter_true _
  have hp : providers (constructService e) (fun _ => true) =
      (e.modules.map fun km =>
        km.2.components.map (toDiscoveredClass km.2)).flatten :=
    List.filter_true _
  refine ⟨hc, ?_, hp, ?_⟩
  · rw [hc, List.length_flatten, List.map_map]
    simp [Function.comp_def, List.length_map]
  · rw [hp, List.length_flatten, List.map_map]
    simp [Function.comp_def, List.length_map]

/-- C4: `controllers f` (and `providers f`) is the filtering of the full
snapshot by `f`: a sublist of `controllers (fun _ => true)` whose
members are exactly the snapshot elements on which `f` is true, in
original order. -/
theorem controllers_providers_filter_subsequence (st : ServiceState)
    (f : DiscoveredClass → Bool) :
    controllers st f = (controllers st (fun _ => true)).filter f
    ∧ (controllers st f).Sublist (controllers st (fun _ => true))
    ∧ (∀ x, x ∈ controllers st f ↔
        x ∈ controllers st (fun _ => true) ∧ f x = true)
    ∧ providers st f = (providers st (fun _ => true)).filter f
    ∧ (providers st f).Sublist (providers st (fun _ => true))
    ∧ (∀ x, x ∈ providers st f ↔
        x ∈ providers st (fun _ => true) ∧ f x = true) := by
  have hc : controllers st (fun _ => true) = st.discoveredControllers := by
    simp [controllers, List.filter_true]
  have hp : providers st (fun _ => true) = st.discoveredProviders := by
    simp [providers, List.filter_true]
  refine ⟨?_, ?_, ?_, ?_, ?_, ?_⟩
  · rw [hc]; rfl
  · rw [hc]; exact List.filter_sublist _
  · intro x
    rw [hc]
    simp [controllers, List.mem_filter]
  · rw [hp]; rfl
  · rw [hp]; exact List.filter_sublist _
  · intro x
    rw [hp]
    simp [providers, List.mem_filter]

/-- C4 witness: in the example application, filtering the controllers by
name keeps `DogsController`. -/
theorem controllers_providers_filter_subsequence_witness :
    exDogsDC ∈ controllers exSt (fun c => c.name == "DogsController") :=
  ((controllers_providers_filter_subsequence exSt
    (fun c => c.name == "DogsController")).2.2.1 exDogsDC).mpr
    ⟨by decide, by decide⟩

/-- C5 counterexample: in an application whose only controller and only
provider carry the stored value `false` at key `"K"`, the annotation
store reports metadata present at `"K"` for both, yet
`controllersWithMetaAtKey "K"` and `providersWithMetaAtKey "K"` are
empty — the selection is not by presence of metadata. -/
theorem classMeta_presence_filter_counterexample :
    (∃ c ∈ controllers exFalsySt (fun _ => true),
        hasMetadataAtKey exFalsyEnv "K" c.classType = true)
    ∧ controllersWithMetaAtKey exFalsyEnv exFalsySt "K" = []
    ∧ (∃ p ∈ providers exFalsySt (fun _ => true),
        hasMetadataAtKey exFalsyEnv "K" p.classType = true)
    ∧ providersWithMetaAtKey exFalsyEnv exFalsySt "K" = [] := by decide

/-- C5 amended: `controllersWithMetaAtKey` (and
`providersWithMetaAtKey`) first filters the discovered classes to those
whose metadata value read at the key from the class's type reference is
truthy, then pairs each survivor with that value; every returned entry
has truthy (hence present) metadata, so classes with no metadata at the
key are excluded entirely rather than included with undefined meta. -/
theorem withMetaAtKey_truthy_filter (e : Env) (st : ServiceState)
    (metaKey : MetaKey) :
    controllersWithMetaAtKey e st metaKey =
      (st.discoveredControllers.filter fun c =>
        (getMetadataOpt e metaKey c.classType).truthy).map (fun x =>
          { meta := getMetadataOpt e metaKey x.classType
            discoveredClass := x })
    ∧ (∀ x ∈ controllersWithMetaAtKey e st metaKey,
        x.meta = getMetadataOpt e metaKey x.discoveredClass.classType
        ∧ x.meta.truthy = true
        ∧ hasMetadataAtKey e metaKey x.discoveredClass.classType = true)
    ∧ providersWithMetaAtKey e st metaKey =
      (st.discoveredProviders.filter fun c =>
        (getMetadataOpt e metaKey c.classType).truthy).map (fun x =>
          { meta := getMetadataOpt e metaKey x.classType
            discoveredClass := x })
    ∧ (∀ x ∈ providersWithMetaAtKey e st metaKey,
        x.meta = getMetadataOpt e metaKey x.discoveredClass.classType
        ∧ x.meta.truthy = true
        ∧ hasMetadataAtKey e metaKey x.discoveredClass.classType = true) := by
  refine ⟨rfl, ?_, rfl, ?_⟩
  · intro x hx
    simp only [controllersWithMetaAtKey] at hx
    obtain ⟨a, ha, rfl⟩ := List.mem_map.mp hx
    have htr : (getMetadataOpt e metaKey a.classType).truthy = true := by
      simpa [withMetaAtKey] using List.of_mem_filter ha
    exact ⟨rfl, htr, hasMetadataAtKey_of_truthy htr⟩
  · intro x hx
    simp only [providersWithMetaAtKey] at hx
    obtain ⟨a, ha, rfl⟩ := List.mem_map.mp hx
    have htr : (getMetadataOpt e metaKey a.classType).truthy = true := by
      simpa [withMetaAtKey] using List.of_mem_filter ha
    exact ⟨rfl, htr, hasMetadataAtKey_of_truthy htr⟩

/-- C5 amended witness: `CatsController` carries the truthy value
`"admin"` at key `"K"` in the example application, and the theorem
applied to its entry yields presence of its metadata. -/
theorem withMetaAtKey_truthy_filter_witness :
    (JSVal.str "admin").truthy = true
    ∧ hasMetadataAtKey exEnv "K" exCatsDC.classType = true :=
  ⟨((withMetaAtKey_truthy_filter exEnv exSt "K").2.1
      ⟨.str "admin", exCatsDC⟩ (by decide)).2.1,
   ((withMetaAtKey_truthy_filter exEnv exSt "K").2.1
      ⟨.str "admin", exCatsDC⟩ (by decide)).2.2⟩

/-- C6: `classMethodsWithMetaAtKey` maps every scanned method name to a
record whose meta is read from the method handler itself, one record
per name, then drops the records with falsy meta; every returned entry
has its meta read from its own handler and truthy. -/
theorem classMethodsWithMetaAtKey_spec (e : Env) (component : DiscoveredClass)
    (metaKey : MetaKey) :
    classMethodsWithMetaAtKey e component metaKey =
      (((e.scanNames component.inst).map fun name =>
        extractMethodMetaAtKey e metaKey component component.inst name).filter
          fun x => x.meta.truthy)
    ∧ ((e.scanNames component.inst).map fun name =>
        extractMethodMetaAtKey e metaKey component component.inst name).length =
      (e.scanNames component.inst).length
    ∧ ∀ x ∈ classMethodsWithMetaAtKey e component metaKey,
        x.meta = e.getMetadata metaKey x.discoveredMethod.handler
        ∧ x.meta.truthy = true := by
  refine ⟨rfl, List.length_map _ _, ?_⟩
  intro x hx
  simp only [classMethodsWithMetaAtKey] at hx
  have hx' := List.mem_filter.mp hx
  obtain ⟨name, hname, rfl⟩ := List.mem_map.mp hx'.1
  exact ⟨rfl, hx'.2⟩

/-- C6 witness: the `list` entry of `CatsController` at the route-path
key has its meta `"/"` read from handler 21 and truthy. -/
theorem classMethodsWithMetaAtKey_spec_witness :
    exListEntry.meta = exEnv.getMetadata "path" exListEntry.discoveredMethod.handler
    ∧ exListEntry.meta.truthy = true :=
  (classMethodsWithMetaAtKey_spec exEnv exCatsDC "path").2.2
    exListEntry (by decide)

/-- C7: `providerMethodsWithMetaAtKey` and
`controllerMethodsWithMetaAtKey` concatenate, class by class in
discovered-list order, `classMethodsWithMetaAtKey` over the classes
selected by the filter, which defaults to accepting every class. -/
theorem methodsWithMetaAtKey_flatten_spec (e : Env) (st : ServiceState)
    (metaKey : MetaKey) (f : DiscoveredClass → Bool) :
    providerMethodsWithMetaAtKey e st metaKey f =
      ((st.discoveredProviders.filter fun x => f x).map fun provider =>
        classMethodsWithMetaAtKey e provider metaKey).flatten
    ∧ providerMethodsWithMetaAtKey e st metaKey =
      providerMethodsWithMetaAtKey e st metaKey (fun _ => true)
    ∧ controllerMethodsWithMetaAtKey e st metaKey f =
      ((st.discoveredControllers.filter fun x => f x).map fun controller =>
        classMethodsWithMetaAtKey e controller metaKey).flatten
    ∧ controllerMethodsWithMetaAtKey e st metaKey =
      controllerMethodsWithMetaAtKey e st metaKey (fun _ => true) :=
  ⟨rfl, rfl, rfl, rfl⟩

/-- C8: a record without a resolvable class type yields no metadata and
raises nothing: the lookup on an absent target is the absence marker,
the class-level filter rejects the record, and no entry of
`controllersWithMetaAtKey` or `providersWithMetaAtKey` is such a
record. -/
theorem absent_classType_soft_absence (e : Env) (st : ServiceState)
    (metaKey : MetaKey) (c : DiscoveredClass) :
    getMetadataOpt e metaKey none = .jsUndefined
    ∧ (c.classType = none → withMetaAtKey e metaKey c = false)
    ∧ (c.classType = none →
        ∀ x ∈ controllersWithMetaAtKey e st metaKey, x.discoveredClass ≠ c)
    ∧ (c.classType = none →
        ∀ x ∈ providersWithMetaAtKey e st metaKey, x.discoveredClass ≠ c) := by
  have hw : c.classType = none → withMetaAtKey e metaKey c = false := by
    intro h
    simp [withMetaAtKey, h, getMetadataOpt, JSVal.truthy]
  refine ⟨rfl, hw, ?_, ?_⟩
  · intro h x hx heq
    simp only [controllersWithMetaAtKey] at hx
    obtain ⟨a, ha, rfl⟩ := List.mem_map.mp hx
    have hpa : withMetaAtKey e metaKey a = true := by
      simpa [controllers] using List.of_mem_filter ha
    have hac : a = c := heq
    rw [hac, hw h] at hpa
    exact Bool.false_ne_true hpa
  · intro h x hx heq
    simp only [providersWithMetaAtKey] at hx
    obtain ⟨a, ha, rfl⟩ := List.mem_map.mp hx
    have hpa : withMetaAtKey e metaKey a = true := by
      simpa [providers] using List.of_mem_filter ha
    have hac : a = c := heq
    rw [hac, hw h] at hpa
    exact Bool.false_ne_true hpa

/-- C8 witness: `ValueProvider` has no class type; at key `"S"` the
filter rejects it, and the only entry of
`providersWithMetaAtKey "S"` (the `CatsService` entry) is not it. -/
theorem absent_classType_soft_absence_witness :
    exValueDC.classType = none
    ∧ withMetaAtKey exEnv "S" exValueDC = false
    ∧ (⟨.str "service", exCatsServiceDC⟩ :
        DiscoveredClassWithMeta).discoveredClass ≠ exValueDC :=
  ⟨rfl,
   (absent_classType_soft_absence exEnv exSt "S" exValueDC).2.1 rfl,
   (absent_classType_soft_absence exEnv exSt "S" exValueDC).2.2.2 rfl
     ⟨.str "service", exCatsServiceDC⟩ (by decide)⟩

/-- C9: every query call, rendered as a state transformer on the
service's private fields, leaves the fields unchanged, and a second
call with identical arguments returns an identical result. -/
theorem query_calls_pure_and_idempotent (e : Env) (st : ServiceState)
    (metaKey : MetaKey) (f : DiscoveredClass → Bool)
    (component : DiscoveredClass) (metaFilter : JSVal → Bool) :
    (providersCall st f).2 = st
    ∧ (providersCall (providersCall st f).2 f).1 = (providersCall st f).1
    ∧ (controllersCall st f).2 = st
    ∧ (controllersCall (controllersCall st f).2 f).1 = (controllersCall st f).1
    ∧ (providersWithMetaAtKeyCall e st metaKey).2 = st
    ∧ (providersWithMetaAtKeyCall e (providersWithMetaAtKeyCall e st metaKey).2
        metaKey).1 = (providersWithMetaAtKeyCall e st metaKey).1
    ∧ (controllersWithMetaAtKeyCall e st metaKey).2 = st
    ∧ (controllersWithMetaAtKeyCall e (controllersWithMetaAtKeyCall e st metaKey).2
        metaKey).1 = (controllersWithMetaAtKeyCall e st metaKey).1
    ∧ (classMethodsWithMetaAtKeyCall e st component metaKey).2 = st
    ∧ (classMethodsWithMetaAtKeyCall e
        (classMethodsWithMetaAtKeyCall e st component metaKey).2 component
        metaKey).1 = (classMethodsWithMetaAtKeyCall e st component metaKey).1
    ∧ (providerMethodsWithMetaAtKeyCall e st metaKey f).2 = st
    ∧ (providerMethodsWithMetaAtKeyCall e
        (providerMethodsWithMetaAtKeyCall e st metaKey f).2 metaKey f).1 =
      (providerMethodsWithMetaAtKeyCall e st metaKey f).1
    ∧ (controllerMethodsWithMetaAtKeyCall e st metaKey f).2 = st
    ∧ (controllerMethodsWithMetaAtKeyCall e
        (controllerMethodsWithMetaAtKeyCall e st metaKey f).2 metaKey f).1 =
      (controllerMethodsWithMetaAtKeyCall e st metaKey f).1
    ∧ (methodsAndControllerMethodsWithMetaAtKeyCall e st metaKey metaFilter).2 = st
    ∧ (methodsAndControllerMethodsWithMetaAtKeyCall e
        (methodsAndControllerMethodsWithMetaAtKeyCall e st metaKey metaFilter).2
        metaKey metaFilter).1 =
      (methodsAndControllerMethodsWithMetaAtKeyCall e st metaKey metaFilter).1 :=
  ⟨rfl, rfl, rfl, rfl, rfl, rfl, rfl, rfl, rfl, rfl, rfl, rfl, rfl, rfl, rfl, rfl⟩

/-- C10: the class-level filter treats a falsy metadata value as
absence: a class whose value read at the key is falsy (stored `0`,
empty string, `false`, or nothing at all) is rejected by
`withMetaAtKey` and appears in neither `controllersWithMetaAtKey` nor
`providersWithMetaAtKey`. -/
theorem falsy_class_meta_excluded (e : Env) (st : ServiceState)
    (metaKey : MetaKey) (c : DiscoveredClass)
    (h : (getMetadataOpt e metaKey c.classType).truthy = false) :
    withMetaAtKey e metaKey c = false
    ∧ c ∉ (controllersWithMetaAtKey e st metaKey).map (fun x => x.discoveredClass)
    ∧ c ∉ (providersWithMetaAtKey e st metaKey).map (fun x => x.discoveredClass) := by
  have hw : withMetaAtKey e metaKey c = false := h
  refine ⟨hw, ?_, ?_⟩
  · intro hmem
    obtain ⟨x, hx, hxc⟩ := List.mem_map.mp hmem
    simp only [controllersWithMetaAtKey] at hx
    obtain ⟨a, ha, rfl⟩ := List.mem_map.mp hx
    have hpa : withMetaAtKey e metaKey a = true := by
      simpa [controllers] using List.of_mem_filter ha
    have hac : a = c := hxc
    rw [hac, hw] at hpa
    exact Bool.false_ne_true hpa
  · intro hmem
    obtain ⟨x, hx, hxc⟩ := List.mem_map.mp hmem
    simp only [providersWithMetaAtKey] at hx
    obtain ⟨a, ha, rfl⟩ := List.mem_map.mp hx
    have hpa : withMetaAtKey e metaKey a = true := by
      simpa [providers] using List.of_mem_filter ha
    have hac : a = c := hxc
    rw [hac, hw] at hpa
    exact Bool.false_ne_true hpa

/-- C10 witness: `CatsService` has the stored but falsy value `0` at key
`"F"` (the store reports it present), and it is excluded from
`providersWithMetaAtKey "F"`. -/
theorem falsy_class_meta_excluded_witness :
    exEnv.getMetadata "F" 12 = .num 0
    ∧ hasMetadataAtKey exEnv "F" exCatsServiceDC.classType = true
    ∧ exCatsServiceDC ∉
        (providersWithMetaAtKey exEnv exSt "F").map (fun x => x.discoveredClass) :=
  ⟨by decide, by decide,
   (falsy_class_meta_excluded exEnv exSt "F" exCatsServiceDC (by decide)).2.2⟩

end Discovery
